import Mathlib

/-!
Shallow embedding of `src/extract_github_data.py`: a resumable two-stage
GitHub extraction pipeline (list stage, per-item detail stage with a
response cache, flatten/validate, checkpoint advancement and a batch S3
upload).  Network responses, the on-disk cache and the sink are modelled
as explicit oracles / state; side effects (network calls, sleeps,
checkpoint writes, sink writes) are recorded in an event trace.
-/

namespace GitHubExtract

/-- JSON-like values, as far as the script manipulates them.  Floats and
arrays never reach the flatten/validate path and are omitted. -/
inductive JVal where
  | null
  | bool (b : Bool)
  | int (z : Int)
  | str (s : String)
  | obj (fields : List (String × JVal))

/-- Python truthiness of a JSON value (used by `if cached_data:` and by
the `if load_from_cache(...) and use_cache:` check in the main loop). -/
def jTruthy : JVal → Bool
  | JVal.null => false
  | JVal.bool b => b
  | JVal.int z => z != 0
  | JVal.str s => s != ""
  | JVal.obj fs => !fs.isEmpty

/-- Python `dict.get(key)`: first binding of `key`, if any. -/
def dictGet (fields : List (String × JVal)) (key : String) : Option JVal :=
  (fields.find? (fun kv => kv.1 == key)).map (fun kv => kv.2)

/-- Python `dict.get(key)` where an absent key yields Python `None`
(JSON null) in the flattened output. -/
def fieldGetD (fields : List (String × JVal)) (key : String) : JVal :=
  (dictGet fields key).getD JVal.null

/-- REQUIRED_FIELDS of the script (module level, lines 51-69). -/
def REQUIRED_FIELDS : List String :=
  ["id", "name", "full_name", "html_url", "description",
   "stargazers_count", "language", "created_at", "updated_at",
   "owner_login", "owner_id", "owner_type", "owner_avatar_url", "owner_url"]

/-- Body of `flatten_repository_data` once the repo fields `fs` and the
owner sub-object fields `ofs` are in hand (`repo.get(k)` /
`repo.get('owner', {}).get(k)`, missing keys becoming Python None). -/
def flattenFields (fs : List (String × JVal)) (ofs : List (String × JVal)) :
    List (String × JVal) :=
  [("id", fieldGetD fs "id"),
   ("name", fieldGetD fs "name"),
   ("full_name", fieldGetD fs "full_name"),
   ("html_url", fieldGetD fs "html_url"),
   ("description", fieldGetD fs "description"),
   ("stargazers_count", fieldGetD fs "stargazers_count"),
   ("language", fieldGetD fs "language"),
   ("created_at", fieldGetD fs "created_at"),
   ("updated_at", fieldGetD fs "updated_at"),
   ("owner_login", fieldGetD ofs "login"),
   ("owner_id", fieldGetD ofs "id"),
   ("owner_type", fieldGetD ofs "type"),
   ("owner_avatar_url", fieldGetD ofs "avatar_url"),
   ("owner_url", fieldGetD ofs "html_url")]

/-- `flatten_repository_data` (lines 493-526).  A non-dict input, or an
`owner` key bound to a non-dict value, raises AttributeError in Python,
which the function catches and turns into `{}`; a missing `owner` key is
replaced by `{}` via `repo.get('owner', {})`. -/
def flatten_repository_data (repo : JVal) : List (String × JVal) :=
  match repo with
  | JVal.obj fs =>
    match dictGet fs "owner" with
    | none => flattenFields fs []
    | some (JVal.obj ofs) => flattenFields fs ofs
    | some _ => []
  | _ => []

/-- Test of `field not in repo or repo[field] is None` (line 542). -/
def fieldMissingOrNull (repo : List (String × JVal)) (f : String) : Bool :=
  match dictGet repo f with
  | none => true
  | some JVal.null => true
  | some _ => false

/-- `validate_repository` (lines 529-546): collects, in REQUIRED_FIELDS
order, the fields that are absent or None, and is valid exactly when
that list is empty. -/
def validate_repository (repo : List (String × JVal)) : Bool × List String :=
  let missing := REQUIRED_FIELDS.foldl
    (fun acc f => if fieldMissingOrNull repo f then acc ++ [f] else acc) []
  (missing.length == 0, missing)

/-- Summary record returned by the list endpoint: the fields the
orchestrator reads (`repo_summary['id']`, `['owner']['login']`,
`['name']`, lines 676-678). -/
structure Summary where
  id : Int
  owner : String
  name : String
deriving DecidableEq

/-- Observable side effects of one run, in order of occurrence. -/
inductive Event where
  | listCall
  | detailCall (owner name : String)
  | sleep (units : Nat)
  | saveLastRepoId (repoId : Int)
  | s3Upload
deriving DecidableEq

/-- Oracle for the single list-endpoint request of a run:
a page of summaries, a 403 rate-limit rejection, or another
network/HTTP failure (all non-2xx paths end in the same
`except RequestException` branch, lines 432-434). -/
inductive ListOutcome where
  | ok (repos : List Summary)
  | rateLimited403
  | netError

/-- Oracle outcome of one detail-endpoint request (lines 479-490):
success, 404, 403, another HTTP error, or a network/timeout failure.
All non-ok outcomes make `fetch_repository_details` return None. -/
inductive DetailOutcome where
  | ok (payload : JVal)
  | notFound
  | forbidden403
  | httpError
  | netError

/-- Whether a detail outcome is a successful payload. -/
def DetailOutcome.isOk : DetailOutcome → Bool
  | DetailOutcome.ok _ => true
  | _ => false

/-- Config.REPOS_PER_PAGE (line 89). -/
def REPOS_PER_PAGE : Int := 100

/-- Config.TEST_MODE_PAGES (line 91). -/
def TEST_MODE_PAGES : Int := 1

/-- Config.RATE_LIMIT_SLEEP (line 106): cooldown, in time-units, meant
to be slept after a rate-limit signal. -/
def RATE_LIMIT_SLEEP : Nat := 60

/-- Config.REQUEST_DELAY (line 107), in whole time-units. -/
def REQUEST_DELAY_UNITS : Nat := 1

/-- The on-disk detail cache: one entry per repository id (the cache
kind is always 'detail' on this path). -/
abbrev Cache := Int → Option JVal

/-- Empty cache directory. -/
def emptyCache : Cache := fun _ => none

/-- `load_from_cache` (lines 324-343): read the cache file if present. -/
def load_from_cache (c : Cache) (repoId : Int) : Option JVal := c repoId

/-- `save_to_cache` (lines 306-321): write the cache file. -/
def save_to_cache (c : Cache) (repoId : Int) (data : JVal) : Cache :=
  fun j => if j == repoId then some data else c j

/-- Combined `load_from_cache(...)` + Python truthiness test, as done
both in `fetch_repository_details` (line 453-454) and in the
orchestrator loop (line 691). -/
def cacheProbe (c : Cache) (repoId : Int) : Bool :=
  match load_from_cache c repoId with
  | some d => jTruthy d
  | none => false

/-- Network path of `fetch_repository_details` (lines 457-490): sleep
REQUEST_DELAY, issue the request; on success cache the payload (when
caching is on) and return it, on any failure return None. -/
def detailNetworkFetch (useCache : Bool) (cache : Cache)
    (net : String → String → DetailOutcome) (owner repoName : String)
    (repoId : Int) : Option JVal × Cache × List Event :=
  let evs : List Event :=
    [Event.sleep REQUEST_DELAY_UNITS, Event.detailCall owner repoName]
  match net owner repoName with
  | DetailOutcome.ok payload =>
      (some payload,
       (if useCache then save_to_cache cache repoId payload else cache), evs)
  | _ => (none, cache, evs)

/-- `fetch_repository_details` (lines 437-490): a truthy cached entry is
returned with no network activity; otherwise the network path runs.
The network oracle is keyed by the owner/name pair of the request URL. -/
def fetch_repository_details (useCache : Bool) (cache : Cache)
    (net : String → String → DetailOutcome) (owner repoName : String)
    (repoId : Int) : Option JVal × Cache × List Event :=
  if useCache && cacheProbe cache repoId then
    (load_from_cache cache repoId, cache, [])
  else
    detailNetworkFetch useCache cache net owner repoName repoId

/-- `fetch_repository_list` (lines 393-434): one request; an empty page
or any request failure returns `([], since)`, a non-empty page returns
the page together with the id of its last element (`repos[-1]['id']`). -/
def fetch_repository_list (since : Int) (resp : ListOutcome) :
    (List Summary × Int) × List Event :=
  match resp with
  | ListOutcome.ok repos =>
      ((if repos.isEmpty then ([], since)
        else (repos, ((repos.getLast?).map Summary.id).getD since)),
       [Event.listCall])
  | ListOutcome.rateLimited403 => (([], since), [Event.listCall])
  | ListOutcome.netError => (([], since), [Event.listCall])

/-- Mutable state of the STEP-2 loop of `extract_repositories`
(lines 668-712): accumulators, counters, the cache (disk) state, the
emitted events and the Python loop variable `repo_id` (None while the
loop has not yet run, mirroring an unbound variable). -/
structure LoopState where
  detailed : List (List (String × JVal))
  valid_count : Nat
  invalid_count : Nat
  failed_count : Nat
  api_calls : Nat
  cache_hits : Nat
  cache : Cache
  events : List Event
  lastVar : Option Int

/-- Loop state at entry of STEP 2 (lines 668-673). -/
def initLoopState (cache0 : Cache) : LoopState :=
  { detailed := []
    valid_count := 0
    invalid_count := 0
    failed_count := 0
    api_calls := 0
    cache_hits := 0
    cache := cache0
    events := []
    lastVar := none }

/-- One iteration of the detail loop (lines 675-712).  A None detail
result increments failed_count and api_calls and `continue`s — skipping
the `save_last_repo_id` call at line 712.  Otherwise the cache is
re-probed (line 691) to classify the call as cache hit or API call, the
payload is flattened and validated, and the checkpoint is written. -/
def processOne (useCache : Bool) (net : String → String → DetailOutcome)
    (st : LoopState) (s : Summary) : LoopState :=
  let r := fetch_repository_details useCache st.cache net s.owner s.name s.id
  match r.1 with
  | none =>
      { st with
        failed_count := st.failed_count + 1
        api_calls := st.api_calls + 1
        cache := r.2.1
        events := st.events ++ r.2.2
        lastVar := some s.id }
  | some payload =>
      let st1 :=
        if cacheProbe r.2.1 s.id && useCache then
          { st with cache_hits := st.cache_hits + 1 }
        else
          { st with api_calls := st.api_calls + 1 }
      let flattened := flatten_repository_data payload
      let v := validate_repository flattened
      let st2 :=
        if v.1 then
          { st1 with
            detailed := st1.detailed ++ [flattened]
            valid_count := st1.valid_count + 1 }
        else
          { st1 with invalid_count := st1.invalid_count + 1 }
      { st2 with
        cache := r.2.1
        events := st.events ++ r.2.2 ++ [Event.saveLastRepoId s.id]
        lastVar := some s.id }

/-- The whole STEP-2 loop over the budget-truncated summary list. -/
def processAll (useCache : Bool) (net : String → String → DetailOutcome)
    (st : LoopState) (l : List Summary) : LoopState :=
  l.foldl (processOne useCache net) st

/-- Python list slice `l[:n]` for an Int bound: non-negative bounds
truncate from the front, negative bounds drop `|n|` items off the end. -/
def pySliceTo (n : Int) {α : Type} (l : List α) : List α :=
  if 0 ≤ n then l.take n.toNat else l.take (l.length - n.natAbs)

/-- Request budget of one run (lines 627-639): a fixed page in test
mode, quota minus one (reserving the list call) otherwise. -/
def computeBudget (testMode : Bool) (maxRequestsPerRun : Int) : Int :=
  if testMode then REPOS_PER_PAGE * TEST_MODE_PAGES else maxRequestsPerRun - 1

/-- `repos_to_process = repo_list[:max_repos]` (line 660). -/
def reposToProcess (testMode : Bool) (maxRequestsPerRun : Int)
    (repoList : List Summary) : List Summary :=
  pySliceTo (computeBudget testMode maxRequestsPerRun) repoList

/-- Run Metadata (lines 728-740); the two wall-clock fields
(extraction_date, duration_seconds) are outside the model. -/
structure Metadata where
  start_repo_id : Int
  last_repo_id : Int
  total_processed : Nat
  valid_count : Nat
  invalid_count : Nat
  failed_count : Nat
  api_calls : Nat
  cache_hits : Nat
  test_mode : Bool
deriving DecidableEq

/-- Result of `extract_repositories`: the empty-list early return
(success False, lines 650-655), the NameError raised at line 725 when
the loop body never ran (`repo_id` unbound), or the success dictionary
(lines 755-760) with the metadata, whether upload_to_s3 returned a key,
and `repositories_count`. -/
inductive RunResult where
  | noRepos
  | crash
  | done (metadata : Metadata) (s3KeyWritten : Bool) (repositoriesCount : Nat)
deriving DecidableEq

/-- The `success` flag of the returned dictionary. -/
def runSuccess : RunResult → Bool
  | RunResult.done _ _ _ => true
  | _ => false

/-- The metadata of a completed run. -/
def RunResult.getMetadata : RunResult → Option Metadata
  | RunResult.done m _ _ => some m
  | _ => none

/-- Exit code of `main` (lines 808-825): 0 when `result['success']` is
true, 1 on the failure dictionary, 1 when an unhandled exception (such
as the line-725 NameError) reaches the generic handler. -/
def mainExitCode : RunResult → Nat
  | RunResult.done _ _ _ => 0
  | RunResult.noRepos => 1
  | RunResult.crash => 1

/-- Construction of the metadata dictionary (lines 728-740). -/
def mkRunMetadata (since : Int) (testMode : Bool) (toProcess : List Summary)
    (st : LoopState) (lastProcessed : Int) : Metadata :=
  { start_repo_id := since
    last_repo_id := lastProcessed
    total_processed := toProcess.length
    valid_count := st.valid_count
    invalid_count := st.invalid_count
    failed_count := st.failed_count
    api_calls := st.api_calls
    cache_hits := st.cache_hits
    test_mode := testMode }

/-- Tail of `extract_repositories` after the STEP-2 loop (lines
714-760): the line-725 use of the unbound loop variable when the loop
never ran (NameError, modelled as `crash`), otherwise the metadata
build, the conditional `upload_to_s3` call (only when upload is not
skipped and `detailed_repos` is non-empty) and the success result. -/
def finishRun (skipUpload uploadOk : Bool) (since : Int) (testMode : Bool)
    (toProcess : List Summary) (st : LoopState) :
    RunResult × Cache × List Event :=
  match st.lastVar with
  | none => (RunResult.crash, st.cache, st.events)
  | some lastProcessed =>
      let md := mkRunMetadata since testMode toProcess st lastProcessed
      if !skipUpload && !st.detailed.isEmpty then
        (RunResult.done md uploadOk st.detailed.length, st.cache,
         st.events ++ [Event.s3Upload])
      else
        (RunResult.done md false st.detailed.length, st.cache, st.events)

/-- `extract_repositories` (lines 606-760).  Parameters: the run budget
configuration, the CLI flags, the checkpoint read at run start
(`since`), the list-endpoint oracle, the detail-endpoint oracle, the
initial cache state, and whether an attempted S3 put succeeds.  Returns
the result dictionary, the final cache state and the event trace. -/
def extract_repositories (maxRequestsPerRun : Int)
    (testMode useCache skipUpload : Bool) (since : Int)
    (listResp : ListOutcome) (net : String → String → DetailOutcome)
    (cache0 : Cache) (uploadOk : Bool) : RunResult × Cache × List Event :=
  let lr := fetch_repository_list since listResp
  if lr.1.1.isEmpty then (RunResult.noRepos, cache0, lr.2)
  else
    let fr := finishRun skipUpload uploadOk since testMode
        (reposToProcess testMode maxRequestsPerRun lr.1.1)
        (processAll useCache net (initLoopState cache0)
          (reposToProcess testMode maxRequestsPerRun lr.1.1))
    (fr.1, fr.2.1, lr.2 ++ fr.2.2)

/-- The sequence of identifiers passed to `save_last_repo_id`, read off
the event trace in order. -/
def savesOf (evs : List Event) : List Int :=
  evs.filterMap fun e =>
    match e with
    | Event.saveLastRepoId i => some i
    | _ => none

/-- Specification mirror of the loop: the identifiers of exactly those
summaries whose detail fetch returns a record, threading the cache
through `fetch_repository_details` exactly as the loop does. -/
def detailSuccessIds (useCache : Bool)
    (net : String → String → DetailOutcome) : Cache → List Summary → List Int
  | _, [] => []
  | c, s :: rest =>
      (if (fetch_repository_details useCache c net s.owner s.name s.id).1.isSome
       then [s.id] else [])
      ++ detailSuccessIds useCache net
          (fetch_repository_details useCache c net s.owner s.name s.id).2.1 rest

/-- Owner sub-object of a well-formed detail payload, used as concrete
input for witnesses and counterexamples. -/
def goodOwner : List (String × JVal) :=
  [("login", JVal.str "o"), ("id", JVal.int 1), ("type", JVal.str "User"),
   ("avatar_url", JVal.str "a"), ("html_url", JVal.str "u")]

/-- Well-formed detail payload whose flattening passes validation. -/
def goodPayload : JVal :=
  JVal.obj
    [("id", JVal.int 7), ("name", JVal.str "n"),
     ("full_name", JVal.str "o/n"), ("html_url", JVal.str "h"),
     ("description", JVal.str "d"), ("stargazers_count", JVal.int 3),
     ("language", JVal.str "L"), ("created_at", JVal.str "c"),
     ("updated_at", JVal.str "u2"), ("owner", JVal.obj goodOwner)]

/-- Detail oracle that succeeds on every request. -/
def wNetOk : String → String → DetailOutcome :=
  fun _ _ => DetailOutcome.ok goodPayload

/-- Detail oracle succeeding only for owner "a" and 404ing otherwise. -/
def wNetMixed : String → String → DetailOutcome :=
  fun o _ => if o == "a" then DetailOutcome.ok goodPayload
             else DetailOutcome.notFound

/-- The list page of the spec scenario: identifiers [5, 6, 7, 9]. -/
def wl4 : List Summary :=
  [⟨5, "a", "x"⟩, ⟨6, "b", "y"⟩, ⟨7, "c", "z"⟩, ⟨9, "d", "w"⟩]

/-- A six-element list page, for the budget witness. -/
def wl6 : List Summary :=
  [⟨1, "a", "a"⟩, ⟨2, "b", "b"⟩, ⟨3, "c", "c"⟩,
   ⟨4, "d", "d"⟩, ⟨5, "e", "e"⟩, ⟨6, "f", "f"⟩]

/-- Flat record with every required field present and non-null but with
a negative `id`, a non-positive `owner_id` and a negative
`stargazers_count`. -/
def negIdRecord : List (String × JVal) :=
  [("id", JVal.int (-1)), ("name", JVal.str "n"),
   ("full_name", JVal.str "o/n"), ("html_url", JVal.str "u"),
   ("description", JVal.str "d"), ("stargazers_count", JVal.int (-5)),
   ("language", JVal.str "x"), ("created_at", JVal.str "t"),
   ("updated_at", JVal.str "t"), ("owner_login", JVal.str "o"),
   ("owner_id", JVal.int 0), ("owner_type", JVal.str "User"),
   ("owner_avatar_url", JVal.str "a"), ("owner_url", JVal.str "u")]

/-- Flat record in which exactly `owner_login` is absent. -/
def noOwnerLoginRecord : List (String × JVal) :=
  [("id", JVal.int 1), ("name", JVal.str "n"),
   ("full_name", JVal.str "o/n"), ("html_url", JVal.str "u"),
   ("description", JVal.str "d"), ("stargazers_count", JVal.int 5),
   ("language", JVal.str "x"), ("created_at", JVal.str "t"),
   ("updated_at", JVal.str "t"),
   ("owner_id", JVal.int 2), ("owner_type", JVal.str "User"),
   ("owner_avatar_url", JVal.str "a"), ("owner_url", JVal.str "u")]

/-! Helper lemmas about the embedding. -/

/-- Accumulating a filter by appending singletons. -/
lemma foldl_append_filter {α : Type} (p : α → Bool) :
    ∀ (l : List α) (acc : List α),
      l.foldl (fun a x => if p x then a ++ [x] else a) acc = acc ++ l.filter p := by
  intro l
  induction l with
  | nil => intro acc; simp
  | cons x t ih =>
      intro acc
      by_cases h : p x = true
      · simp [List.foldl_cons, h, ih, List.filter_cons]
      · simp [List.foldl_cons, h, ih, List.filter_cons]

/-- The missing-or-null test, characterized on `dictGet`. -/
lemma fieldMissingOrNull_iff (r : List (String × JVal)) (f : String) :
    fieldMissingOrNull r f = true ↔
      (dictGet r f = none ∨ dictGet r f = some JVal.null) := by
  unfold fieldMissingOrNull
  cases hg : dictGet r f with
  | none => simp
  | some v => cases v <;> simp

/-- The violated-fields list of `validate_repository` is the filter of
REQUIRED_FIELDS by the missing-or-null test. -/
lemma validate_missing_eq (r : List (String × JVal)) :
    (validate_repository r).2 = REQUIRED_FIELDS.filter (fieldMissingOrNull r) := by
  unfold validate_repository
  simpa using foldl_append_filter (fieldMissingOrNull r) REQUIRED_FIELDS []

/-- Validity flag as emptiness of the violated-fields list. -/
lemma validate_fst_eq (r : List (String × JVal)) :
    (validate_repository r).1 = ((validate_repository r).2.length == 0) := by
  unfold validate_repository
  rfl

/-- Event list of the network path of a detail fetch. -/
lemma detailNetworkFetch_events (u : Bool) (c : Cache)
    (net : String → String → DetailOutcome) (o n : String) (i : Int) :
    (detailNetworkFetch u c net o n i).2.2
      = [Event.sleep REQUEST_DELAY_UNITS, Event.detailCall o n] := by
  unfold detailNetworkFetch
  cases net o n <;> rfl

/-- A detail fetch emits either nothing (cache hit) or exactly one
sleep and one network call. -/
lemma fetch_events_cases (u : Bool) (c : Cache)
    (net : String → String → DetailOutcome) (o n : String) (i : Int) :
    (fetch_repository_details u c net o n i).2.2 = []
    ∨ (fetch_repository_details u c net o n i).2.2
        = [Event.sleep REQUEST_DELAY_UNITS, Event.detailCall o n] := by
  unfold fetch_repository_details
  split
  · exact Or.inl rfl
  · exact Or.inr (detailNetworkFetch_events u c net o n i)

/-- Checkpoint writes distribute over trace concatenation. -/
lemma savesOf_append (a b : List Event) :
    savesOf (a ++ b) = savesOf a ++ savesOf b := by
  unfold savesOf
  exact List.filterMap_append a b _

/-- Detail-fetch traces contain no checkpoint writes. -/
lemma savesOf_fetch_events (u : Bool) (c : Cache)
    (net : String → String → DetailOutcome) (o n : String) (i : Int) :
    savesOf (fetch_repository_details u c net o n i).2.2 = [] := by
  rcases fetch_events_cases u c net o n i with h | h <;> rw [h] <;> rfl

/-- Event trace of one loop iteration: the previous events, the fetch
trace, and a checkpoint write exactly when the fetch returned a record. -/
lemma processOne_events (u : Bool) (net : String → String → DetailOutcome)
    (st : LoopState) (s : Summary) :
    (processOne u net st s).events
      = st.events
        ++ (fetch_repository_details u st.cache net s.owner s.name s.id).2.2
        ++ (if (fetch_repository_details u st.cache net s.owner s.name s.id).1.isSome
            then [Event.saveLastRepoId s.id] else []) := by
  simp only [processOne]
  cases h : (fetch_repository_details u st.cache net s.owner s.name s.id).1 with
  | none => simp [h]
  | some payload => simp [h]

/-- Cache state after one loop iteration. -/
lemma processOne_cache (u : Bool) (net : String → String → DetailOutcome)
    (st : LoopState) (s : Summary) :
    (processOne u net st s).cache
      = (fetch_repository_details u st.cache net s.owner s.name s.id).2.1 := by
  simp only [processOne]
  cases h : (fetch_repository_details u st.cache net s.owner s.name s.id).1 with
  | none => simp [h]
  | some payload => simp [h]

/-- Checkpoint writes of the whole loop are exactly the identifiers of
the summaries whose detail fetch returned a record. -/
lemma savesOf_processAll (u : Bool) (net : String → String → DetailOutcome) :
    ∀ (l : List Summary) (st : LoopState),
      savesOf (processAll u net st l).events
        = savesOf st.events ++ detailSuccessIds u net st.cache l := by
  intro l
  induction l with
  | nil => intro st; simp [processAll, detailSuccessIds]
  | cons s t ih =>
      intro st
      have h1 : processAll u net st (s :: t)
          = processAll u net (processOne u net st s) t := rfl
      rw [h1, ih, processOne_events, processOne_cache]
      rw [savesOf_append, savesOf_append, savesOf_fetch_events]
      by_cases h : (fetch_repository_details u st.cache net s.owner s.name s.id).1.isSome
        = true
      · rw [if_pos h]
        simp [detailSuccessIds, h, savesOf]
      · rw [if_neg h]
        simp [detailSuccessIds, h, savesOf]

/-- The success identifiers form a sublist of the processed ids. -/
lemma detailSuccessIds_sublist (u : Bool)
    (net : String → String → DetailOutcome) :
    ∀ (l : List Summary) (c : Cache),
      (detailSuccessIds u net c l).Sublist (l.map Summary.id) := by
  intro l
  induction l with
  | nil => intro c; simp [detailSuccessIds]
  | cons s t ih =>
      intro c
      by_cases h : (fetch_repository_details u c net s.owner s.name s.id).1.isSome
        = true
      · simp only [detailSuccessIds, h, if_pos, List.map_cons, List.singleton_append]
        exact List.Sublist.cons₂ s.id (ih _)
      · simp only [detailSuccessIds, h, if_neg, List.map_cons, List.nil_append]
        exact List.Sublist.cons s.id (ih _)

/-- A fetch whose network outcome is a success always returns a record
(either from the cache or from the network). -/
lemma fetch_isSome_of_ok (u : Bool) (c : Cache)
    (net : String → String → DetailOutcome) (o n : String) (i : Int)
    (h : (net o n).isOk = true) :
    (fetch_repository_details u c net o n i).1.isSome = true := by
  unfold fetch_repository_details
  split
  · rename_i hc
    have hp := ((Bool.and_eq_true _ _).mp hc).2
    unfold cacheProbe at hp
    cases hl : load_from_cache c i with
    | none => rw [hl] at hp; simp at hp
    | some d => simp [hl]
  · unfold detailNetworkFetch
    cases hn : net o n with
    | ok p => simp
    | notFound => rw [hn] at h; simp [DetailOutcome.isOk] at h
    | forbidden403 => rw [hn] at h; simp [DetailOutcome.isOk] at h
    | httpError => rw [hn] at h; simp [DetailOutcome.isOk] at h
    | netError => rw [hn] at h; simp [DetailOutcome.isOk] at h

/-- When every network outcome on the list succeeds, every item yields
a record, whatever the cache holds. -/
lemma detailSuccessIds_of_ok (u : Bool)
    (net : String → String → DetailOutcome) :
    ∀ (l : List Summary),
      (∀ s ∈ l, (net s.owner s.name).isOk = true) →
      ∀ c : Cache, detailSuccessIds u net c l = l.map Summary.id := by
  intro l
  induction l with
  | nil => intro _ c; rfl
  | cons s t ih =>
      intro h c
      have hs : (net s.owner s.name).isOk = true := h s (by simp)
      have h1 := fetch_isSome_of_ok u c net s.owner s.name s.id hs
      have ht : ∀ x ∈ t, (net x.owner x.name).isOk = true :=
        fun x hx => h x (by simp [hx])
      simp [detailSuccessIds, h1, ih ht]

/-- The list stage always emits exactly one network call. -/
lemma list_events (since : Int) (resp : ListOutcome) :
    (fetch_repository_list since resp).2 = [Event.listCall] := by
  cases resp <;> rfl

/-- Python slicing of the empty list. -/
lemma pySliceTo_nil {α : Type} (n : Int) : pySliceTo n ([] : List α) = [] := by
  unfold pySliceTo
  split <;> simp

/-- Python slicing yields a sublist. -/
lemma pySliceTo_sublist {α : Type} (n : Int) (l : List α) :
    (pySliceTo n l).Sublist l := by
  unfold pySliceTo
  split <;> exact List.take_sublist _ _

/-- Length bound of a non-negative Python slice. -/
lemma pySliceTo_length_le {α : Type} (n : Int) (l : List α) (h : 0 ≤ n) :
    ((pySliceTo n l).length : Int) ≤ n := by
  unfold pySliceTo
  rw [if_pos h]
  have h1 : (l.take n.toNat).length ≤ n.toNat := by
    rw [List.length_take]; exact Nat.min_le_left _ _
  have h2 : ((l.take n.toNat).length : Int) ≤ (n.toNat : Int) := Int.ofNat_le.mpr h1
  rwa [Int.toNat_of_nonneg h] at h2

/-- One iteration increments exactly one of the three item counters. -/
lemma counts_processOne (u : Bool) (net : String → String → DetailOutcome)
    (st : LoopState) (s : Summary) :
    (processOne u net st s).valid_count + (processOne u net st s).invalid_count
        + (processOne u net st s).failed_count
      = st.valid_count + st.invalid_count + st.failed_count + 1 := by
  simp only [processOne]
  cases h : (fetch_repository_details u st.cache net s.owner s.name s.id).1 with
  | none => simp; omega
  | some payload =>
      by_cases hc : (cacheProbe
          (fetch_repository_details u st.cache net s.owner s.name s.id).2.1 s.id
          && u) = true
      all_goals by_cases hv :
        (validate_repository (flatten_repository_data payload)).1 = true
      all_goals simp [h, hc, hv]
      all_goals omega

/-- Counter partition across the whole loop. -/
lemma counts_processAll (u : Bool) (net : String → String → DetailOutcome) :
    ∀ (l : List Summary) (st : LoopState),
      (processAll u net st l).valid_count + (processAll u net st l).invalid_count
          + (processAll u net st l).failed_count
        = st.valid_count + st.invalid_count + st.failed_count + l.length := by
  intro l
  induction l with
  | nil => intro st; simp [processAll]
  | cons s t ih =>
      intro st
      have h1 : processAll u net st (s :: t)
          = processAll u net (processOne u net st s) t := rfl
      rw [h1, ih, counts_processOne]
      simp
      omega

/-- One iteration preserves the detailed-batch / valid-count equality. -/
lemma detailed_processOne (u : Bool) (net : String → String → DetailOutcome)
    (st : LoopState) (s : Summary)
    (h : st.detailed.length = st.valid_count) :
    (processOne u net st s).detailed.length
      = (processOne u net st s).valid_count := by
  simp only [processOne]
  cases h2 : (fetch_repository_details u st.cache net s.owner s.name s.id).1 with
  | none => simpa using h
  | some payload =>
      by_cases hc : (cacheProbe
          (fetch_repository_details u st.cache net s.owner s.name s.id).2.1 s.id
          && u) = true
      all_goals by_cases hv :
        (validate_repository (flatten_repository_data payload)).1 = true
      all_goals simp [h2, hc, hv, h]

/-- The published batch always has exactly valid_count records. -/
lemma detailed_processAll (u : Bool) (net : String → String → DetailOutcome) :
    ∀ (l : List Summary) (st : LoopState),
      st.detailed.length = st.valid_count →
      (processAll u net st l).detailed.length = (processAll u net st l).valid_count := by
  intro l
  induction l with
  | nil => intro st h; simpa [processAll] using h
  | cons s t ih =>
      intro st h
      exact ih (processOne u net st s) (detailed_processOne u net st s h)

/-- No sink write ever occurs inside a detail fetch. -/
lemma s3_notin_fetch (u : Bool) (c : Cache)
    (net : String → String → DetailOutcome) (o n : String) (i : Int) :
    Event.s3Upload ∉ (fetch_repository_details u c net o n i).2.2 := by
  rcases fetch_events_cases u c net o n i with h | h <;> rw [h] <;> simp

/-- No sink write ever occurs inside the detail loop. -/
lemma s3_notin_processAll (u : Bool) (net : String → String → DetailOutcome) :
    ∀ (l : List Summary) (st : LoopState),
      Event.s3Upload ∉ st.events →
      Event.s3Upload ∉ (processAll u net st l).events := by
  intro l
  induction l with
  | nil => intro st h; simpa [processAll] using h
  | cons s t ih =>
      intro st h
      have h1 : Event.s3Upload ∉ (processOne u net st s).events := by
        rw [processOne_events]
        intro hmem
        rcases List.mem_append.mp hmem with hmem1 | hmem2
        · rcases List.mem_append.mp hmem1 with h3 | h4
          · exact h h3
          · exact s3_notin_fetch u st.cache net s.owner s.name s.id h4
        · revert hmem2; split <;> simp
      exact ih (processOne u net st s) h1

/-- The run tail adds no checkpoint writes. -/
lemma finishRun_savesOf (skip upOk : Bool) (since : Int) (tm : Bool)
    (tp : List Summary) (st : LoopState) :
    savesOf (finishRun skip upOk since tm tp st).2.2 = savesOf st.events := by
  unfold finishRun
  cases hl : st.lastVar with
  | none => rfl
  | some lp =>
      simp only []
      split
      · rw [savesOf_append]; simp [savesOf]
      · rfl

/-- Shape of a completed run tail: the loop ran, the metadata is the
one built at lines 728-740, the reported count is the batch size, and
an empty batch never reaches the sink. -/
lemma finishRun_done (skip upOk : Bool) (since : Int) (tm : Bool)
    (tp : List Summary) (st : LoopState) (md : Metadata) (s3w : Bool) (cnt : Nat)
    (h : (finishRun skip upOk since tm tp st).1 = RunResult.done md s3w cnt) :
    ∃ lp, st.lastVar = some lp
      ∧ md = mkRunMetadata since tm tp st lp
      ∧ cnt = st.detailed.length
      ∧ (st.detailed.isEmpty = true → s3w = false) := by
  unfold finishRun at h
  cases hl : st.lastVar with
  | none => rw [hl] at h; simp at h
  | some lp =>
      rw [hl] at h
      refine ⟨lp, rfl, ?_⟩
      simp only [] at h
      split at h
      · rename_i hcond
        simp only [Prod.mk.injEq] at h
        rw [RunResult.done.injEq] at h
        refine ⟨h.1.symm, h.2.2.symm, ?_⟩
        intro hemp
        rw [hemp] at hcond
        simp at hcond
      · rw [RunResult.done.injEq] at h
        exact ⟨h.1.symm, h.2.2.symm, fun _ => h.2.1.symm⟩

/-- With an empty batch the run tail makes no sink write. -/
lemma finishRun_no_s3 (skip upOk : Bool) (since : Int) (tm : Bool)
    (tp : List Summary) (st : LoopState)
    (h1 : Event.s3Upload ∉ st.events) (h2 : st.detailed.isEmpty = true) :
    Event.s3Upload ∉ (finishRun skip upOk since tm tp st).2.2 := by
  unfold finishRun
  cases hl : st.lastVar with
  | none => simpa using h1
  | some lp =>
      simp only []
      split
      · rename_i hcond
        rw [h2] at hcond
        simp at hcond
      · simpa using h1

/-- The checkpoint writes of a whole run are exactly the identifiers of
the budget-truncated summaries whose detail fetch returned a record. -/
lemma savesOf_extract_eq (maxReq : Int) (tm u skip : Bool) (since : Int)
    (listResp : ListOutcome) (net : String → String → DetailOutcome)
    (cache0 : Cache) (upOk : Bool) :
    savesOf (extract_repositories maxReq tm u skip since listResp net cache0 upOk).2.2
      = detailSuccessIds u net cache0
          (reposToProcess tm maxReq (fetch_repository_list since listResp).1.1) := by
  simp only [extract_repositories]
  by_cases hemp : (fetch_repository_list since listResp).1.1.isEmpty = true
  · rw [if_pos hemp, list_events]
    have hnil : (fetch_repository_list since listResp).1.1 = [] :=
      List.isEmpty_iff.mp hemp
    rw [hnil]
    unfold reposToProcess
    rw [pySliceTo_nil]
    rfl
  · rw [if_neg hemp]
    rw [savesOf_append, list_events, finishRun_savesOf]
    rw [savesOf_processAll]
    rfl

/-- A completed run factors through `finishRun` on the loop's final
state. -/
lemma extract_done (maxReq : Int) (tm u skip : Bool) (since : Int)
    (listResp : ListOutcome) (net : String → String → DetailOutcome)
    (cache0 : Cache) (upOk : Bool) (md : Metadata) (s3w : Bool) (cnt : Nat)
    (h : (extract_repositories maxReq tm u skip since listResp net cache0 upOk).1
          = RunResult.done md s3w cnt) :
    (finishRun skip upOk since tm
        (reposToProcess tm maxReq (fetch_repository_list since listResp).1.1)
        (processAll u net (initLoopState cache0)
          (reposToProcess tm maxReq (fetch_repository_list since listResp).1.1))).1
      = RunResult.done md s3w cnt := by
  simp only [extract_repositories] at h
  by_cases hemp : (fetch_repository_list since listResp).1.1.isEmpty = true
  · rw [if_pos hemp] at h; simp at h
  · rw [if_neg hemp] at h
    exact h

/-- An empty batch means no sink write anywhere in the run trace. -/
lemma extract_no_s3 (maxReq : Int) (tm u skip : Bool) (since : Int)
    (listResp : ListOutcome) (net : String → String → DetailOutcome)
    (cache0 : Cache) (upOk : Bool)
    (hdet : (processAll u net (initLoopState cache0)
        (reposToProcess tm maxReq
          (fetch_repository_list since listResp).1.1)).detailed.isEmpty = true) :
    Event.s3Upload
      ∉ (extract_repositories maxReq tm u skip since listResp net cache0 upOk).2.2 := by
  simp only [extract_repositories]
  by_cases hemp : (fetch_repository_list since listResp).1.1.isEmpty = true
  · rw [if_pos hemp, list_events]; simp
  · rw [if_neg hemp]
    intro hmem
    rcases List.mem_append.mp hmem with h1 | h2
    · rw [list_events] at h1; simp at h1
    · have hst : Event.s3Upload
          ∉ (processAll u net (initLoopState cache0)
              (reposToProcess tm maxReq
                (fetch_repository_list since listResp).1.1)).events :=
        s3_notin_processAll u net _ _ (by simp [initLoopState])
      exact finishRun_no_s3 skip upOk since tm _ _ hst hdet h2

/-! Claims. -/

/-- Claim C1, counterexample: a run over the single summary with
identifier 7 whose detail fetch returns 404 ends with no checkpoint
write at all — `save_last_repo_id` is never called with 7, because the
`continue` at line 688 skips the write at line 712. -/
theorem failed_fetch_skips_checkpoint :
    savesOf (extract_repositories 60 false true false 0
        (ListOutcome.ok [⟨7, "oo", "nn"⟩])
        (fun _ _ => DetailOutcome.notFound) emptyCache true).2.2 = []
    ∧ Event.saveLastRepoId 7
        ∉ (extract_repositories 60 false true false 0
            (ListOutcome.ok [⟨7, "oo", "nn"⟩])
            (fun _ _ => DetailOutcome.notFound) emptyCache true).2.2 :=
  ⟨rfl, by decide⟩

/-- Claim C1 (amended): in the per-item loop, `save_last_repo_id` is
called with a summary's identifier exactly when that summary's detail
fetch returns a record; a fetch returning None (404 or failure) hits
the `continue` and does not advance the persisted cursor for that
item.  The run's checkpoint writes are therefore exactly
`detailSuccessIds` over the budget-truncated list. -/
theorem checkpoint_saves_iff_detail_success (maxReq : Int) (tm u skip : Bool)
    (since : Int) (listResp : ListOutcome)
    (net : String → String → DetailOutcome) (cache0 : Cache) (upOk : Bool) :
    savesOf (extract_repositories maxReq tm u skip since listResp net cache0 upOk).2.2
      = detailSuccessIds u net cache0
          (reposToProcess tm maxReq (fetch_repository_list since listResp).1.1) :=
  savesOf_extract_eq maxReq tm u skip since listResp net cache0 upOk

/-- Claim C1, witness: a mixed run (ids 5 and 8 succeed, 6 fails)
checkpoints exactly [5, 8]. -/
theorem checkpoint_saves_iff_detail_success_witness :
    savesOf (extract_repositories 60 false true false 0
        (ListOutcome.ok [⟨5, "a", "x"⟩, ⟨6, "b", "y"⟩, ⟨8, "a", "z"⟩])
        wNetMixed emptyCache true).2.2 = [5, 8] :=
  (checkpoint_saves_iff_detail_success 60 false true false 0
      (ListOutcome.ok [⟨5, "a", "x"⟩, ⟨6, "b", "y"⟩, ⟨8, "a", "z"⟩])
      wNetMixed emptyCache true).trans (by decide)

/-- Claim C2: when the fetched summary list is sorted by ascending
identifier, the sequence of values passed to `save_last_repo_id`
during one run is non-decreasing; and when every detail fetch succeeds
it equals the identifiers of the whole budget-truncated list, so the
last persisted value is the identifier of its last summary. -/
theorem checkpoint_monotone_within_run (maxReq : Int) (tm u skip : Bool)
    (since : Int) (listResp : ListOutcome)
    (net : String → String → DetailOutcome) (cache0 : Cache) (upOk : Bool)
    (hsorted : ((fetch_repository_list since listResp).1.1.map
        Summary.id).Pairwise (· ≤ ·)) :
    (savesOf (extract_repositories maxReq tm u skip since listResp net cache0
        upOk).2.2).Pairwise (· ≤ ·)
    ∧ ((∀ s ∈ reposToProcess tm maxReq (fetch_repository_list since listResp).1.1,
          (net s.owner s.name).isOk = true) →
        savesOf (extract_repositories maxReq tm u skip since listResp net cache0
            upOk).2.2
          = (reposToProcess tm maxReq
              (fetch_repository_list since listResp).1.1).map Summary.id
        ∧ (savesOf (extract_repositories maxReq tm u skip since listResp net cache0
              upOk).2.2).getLast?
            = ((reposToProcess tm maxReq
                (fetch_repository_list since listResp).1.1).map Summary.id).getLast?) := by
  have heq := savesOf_extract_eq maxReq tm u skip since listResp net cache0 upOk
  constructor
  · rw [heq]
    have hsub : (detailSuccessIds u net cache0
        (reposToProcess tm maxReq
          (fetch_repository_list since listResp).1.1)).Sublist
        ((fetch_repository_list since listResp).1.1.map Summary.id) :=
      (detailSuccessIds_sublist u net _ cache0).trans
        ((pySliceTo_sublist _ _).map Summary.id)
    exact List.Pairwise.sublist hsub hsorted
  · intro hok
    have h2 := detailSuccessIds_of_ok u net _ hok cache0
    refine ⟨by rw [heq]; exact h2, by rw [heq, h2]⟩

/-- Claim C2, witness: the spec scenario — cursor 0, identifiers
[5, 6, 7, 9], budget 4, all fetches succeed — checkpoints the
non-decreasing sequence [5, 6, 7, 9], ending at 9. -/
theorem checkpoint_monotone_within_run_witness :
    (((fetch_repository_list 0 (ListOutcome.ok wl4)).1.1.map
        Summary.id).Pairwise (· ≤ ·))
    ∧ (savesOf (extract_repositories 5 false true false 0 (ListOutcome.ok wl4)
        wNetOk emptyCache true).2.2).Pairwise (· ≤ ·)
    ∧ savesOf (extract_repositories 5 false true false 0 (ListOutcome.ok wl4)
        wNetOk emptyCache true).2.2 = [5, 6, 7, 9] := by
  have hs : ((fetch_repository_list 0 (ListOutcome.ok wl4)).1.1.map
      Summary.id).Pairwise (· ≤ ·) := by decide
  have hok : ∀ s ∈ reposToProcess false 5
      (fetch_repository_list 0 (ListOutcome.ok wl4)).1.1,
      (wNetOk s.owner s.name).isOk = true := by decide
  have h := checkpoint_monotone_within_run 5 false true false 0
    (ListOutcome.ok wl4) wNetOk emptyCache true hs
  exact ⟨hs, h.1, ((h.2 hok).1).trans (by decide)⟩

/-- Claim C3, code bug: with caching enabled and an empty cache, a run
whose single detail record is fetched fresh from the network (the
trace contains the detail network call) nevertheless reports
cache_hits = 1 and api_calls = 0, because line 691 re-reads the cache
after `fetch_repository_details` has already stored the payload there. -/
theorem fresh_fetch_counted_as_cache_hit :
    (extract_repositories 60 false true false 0 (ListOutcome.ok [⟨7, "o", "n"⟩])
        wNetOk emptyCache true).1
      = RunResult.done ⟨0, 7, 1, 1, 0, 0, 0, 1, false⟩ true 1
    ∧ Event.detailCall "o" "n"
        ∈ (extract_repositories 60 false true false 0
            (ListOutcome.ok [⟨7, "o", "n"⟩]) wNetOk emptyCache true).2.2 :=
  ⟨by decide, by decide⟩

/-- Claim C4, code bug: a 403 rate-limited list response makes the run
return no progress with the cursor unchanged, but the whole event
trace is the single list call — no `Event.sleep RATE_LIMIT_SLEEP`
cooldown is ever performed (the constant is defined at line 106 and
never used). -/
theorem rate_limited_list_no_sleep :
    (fetch_repository_list 42 ListOutcome.rateLimited403).1 = ([], 42)
    ∧ (extract_repositories 60 false true false 42 ListOutcome.rateLimited403
        (fun _ _ => DetailOutcome.notFound) emptyCache true).1 = RunResult.noRepos
    ∧ (extract_repositories 60 false true false 42 ListOutcome.rateLimited403
        (fun _ _ => DetailOutcome.notFound) emptyCache true).2.2 = [Event.listCall]
    ∧ Event.sleep RATE_LIMIT_SLEEP
        ∉ (extract_repositories 60 false true false 42 ListOutcome.rateLimited403
            (fun _ _ => DetailOutcome.notFound) emptyCache true).2.2 :=
  ⟨rfl, rfl, rfl, by decide⟩

/-- Claim C5: `validate_repository` returns false exactly when some
required field is absent or null, its second component lists exactly
the violated fields in REQUIRED_FIELDS order, and it returns true with
an empty list when every required field is present and non-null.  (The
function is a pure input-to-output map in this embedding, so it cannot
mutate its argument.) -/
theorem validate_repository_characterization (r : List (String × JVal)) :
    (validate_repository r).2 = REQUIRED_FIELDS.filter (fieldMissingOrNull r)
    ∧ ((validate_repository r).1 = true ↔
        ∀ f ∈ REQUIRED_FIELDS,
          ¬(dictGet r f = none ∨ dictGet r f = some JVal.null))
    ∧ ((validate_repository r).1 = false ↔
        ∃ f ∈ REQUIRED_FIELDS,
          (dictGet r f = none ∨ dictGet r f = some JVal.null)) := by
  have hm := validate_missing_eq r
  have htrue : (validate_repository r).1 = true ↔
      ∀ f ∈ REQUIRED_FIELDS,
        ¬(dictGet r f = none ∨ dictGet r f = some JVal.null) := by
    rw [validate_fst_eq, hm]
    simp only [beq_iff_eq, List.length_eq_zero, List.filter_eq_nil_iff]
    constructor
    · intro h f hf hd
      exact h f hf ((fieldMissingOrNull_iff r f).mpr hd)
    · intro h f hf hp
      exact h f hf ((fieldMissingOrNull_iff r f).mp hp)
  have hfalse : (validate_repository r).1 = false ↔
      ¬((validate_repository r).1 = true) := by
    cases hb : (validate_repository r).1 <;> simp
  refine ⟨hm, htrue, ?_⟩
  rw [hfalse, htrue]
  constructor
  · intro h
    by_contra hc
    exact h (fun f hf hd => hc ⟨f, hf, hd⟩)
  · rintro ⟨f, hf, hd⟩ hall
    exact hall f hf hd

/-- Claim C5, witness: the spec scenario — a record in which exactly
`owner_login` is absent fails validation, naming exactly that field. -/
theorem validate_repository_characterization_witness :
    (validate_repository noOwnerLoginRecord).2 = ["owner_login"]
    ∧ (validate_repository noOwnerLoginRecord).1 = false :=
  ⟨((validate_repository_characterization noOwnerLoginRecord).1).trans (by rfl),
   ((validate_repository_characterization noOwnerLoginRecord).2.2).mpr
     ⟨"owner_login", by decide, Or.inl rfl⟩⟩

/-- Claim C6, counterexample: a record with every required field
present and non-null but with id = -1, owner_id = 0 and
stargazers_count = -5 is accepted by `validate_repository`, although
the claim says such a record must be rejected — the function performs
no numeric checks at all. -/
theorem validate_accepts_nonpositive_ids :
    validate_repository negIdRecord = (true, []) := by rfl

/-- Claim C6 (amended): `validate_repository` applies no numeric
constraints: every record whose required fields are all present and
non-null is accepted, whatever the values of id, owner_id and
stargazers_count. -/
theorem validate_no_numeric_constraints (r : List (String × JVal))
    (h : ∀ f ∈ REQUIRED_FIELDS, fieldMissingOrNull r f = false) :
    validate_repository r = (true, []) := by
  have hfil : REQUIRED_FIELDS.filter (fieldMissingOrNull r) = [] :=
    List.filter_eq_nil_iff.mpr (fun a ha => by simp [h a ha])
  have h2 : (validate_repository r).2 = [] := (validate_missing_eq r).trans hfil
  have h1 : (validate_repository r).1 = true := by
    rw [validate_fst_eq, h2]; rfl
  calc validate_repository r
      = ((validate_repository r).1, (validate_repository r).2) := rfl
    _ = (true, []) := by rw [h1, h2]

/-- Claim C6, witness: the amended statement applied to the concrete
record with non-positive identifiers and negative star count. -/
theorem validate_no_numeric_constraints_witness :
    (∀ f ∈ REQUIRED_FIELDS, fieldMissingOrNull negIdRecord f = false)
    ∧ validate_repository negIdRecord = (true, []) :=
  ⟨by decide, validate_no_numeric_constraints negIdRecord (by decide)⟩

/-- Claim C7: the number of summaries entering the detail loop is the
length of `repos_to_process`, which is at most
REPOS_PER_PAGE * TEST_MODE_PAGES in test mode and at most
MAX_REQUESTS_PER_RUN - 1 otherwise (for any positive configured
quota), because the fetched list is truncated to that budget. -/
theorem detail_budget_conservation (maxReq : Int) (tm : Bool)
    (repoList : List Summary) (h : 1 ≤ maxReq) :
    ((reposToProcess tm maxReq repoList).length : Int)
      ≤ (if tm then REPOS_PER_PAGE * TEST_MODE_PAGES else maxReq - 1) := by
  unfold reposToProcess computeBudget
  by_cases htm : tm = true
  · rw [if_pos htm]
    exact pySliceTo_length_le _ _ (by norm_num [REPOS_PER_PAGE, TEST_MODE_PAGES])
  · rw [if_neg htm]
    exact pySliceTo_length_le _ _ (by omega)

/-- Claim C7, witness: with quota 5 in non-test mode, a six-summary
page is truncated to at most 4 detail attempts. -/
theorem detail_budget_conservation_witness :
    (1 ≤ (5 : Int))
    ∧ ((reposToProcess false 5 wl6).length : Int)
        ≤ (if false then REPOS_PER_PAGE * TEST_MODE_PAGES else 5 - 1) :=
  ⟨by norm_num, detail_budget_conservation 5 false wl6 (by norm_num)⟩

/-- Claim C8: `fetch_repository_list since resp` returns a cursor equal
to the identifier of the last item of the returned page when the page
is non-empty, and equal to `since` unchanged when the page is empty or
the request fails (403 rate limit or network error). -/
theorem fetch_repository_list_cursor_semantics (since : Int) (resp : ListOutcome) :
    ((fetch_repository_list since resp).1.1 = [] →
        (fetch_repository_list since resp).1.2 = since)
    ∧ (∀ h : (fetch_repository_list since resp).1.1 ≠ [],
        (fetch_repository_list since resp).1.2
          = (((fetch_repository_list since resp).1.1).getLast h).id)
    ∧ ((resp = ListOutcome.rateLimited403 ∨ resp = ListOutcome.netError) →
        (fetch_repository_list since resp).1 = ([], since)) := by
  cases resp with
  | ok repos =>
      cases repos with
      | nil =>
          refine ⟨fun _ => rfl, fun h => absurd rfl h, fun _ => rfl⟩
      | cons r t =>
          refine ⟨?_, ?_, ?_⟩
          · intro h
            exact absurd h (by simp [fetch_repository_list])
          · intro h
            show (((r :: t).getLast?).map Summary.id).getD since
                = ((r :: t).getLast h).id
            rw [List.getLast?_eq_getLast (r :: t) h]
            rfl
          · intro hor
            rcases hor with h | h <;> exact ListOutcome.noConfusion h
  | rateLimited403 =>
      refine ⟨fun _ => rfl, fun h => absurd rfl h, fun _ => rfl⟩
  | netError =>
      refine ⟨fun _ => rfl, fun h => absurd rfl h, fun _ => rfl⟩

/-- Claim C8, witness: a one-element page moves the cursor to that
element's identifier, and a rate-limited request leaves it unchanged. -/
theorem fetch_repository_list_cursor_semantics_witness :
    (fetch_repository_list 10 (ListOutcome.ok [⟨3, "a", "b"⟩])).1.2 = 3
    ∧ (fetch_repository_list 10 ListOutcome.rateLimited403).1 = ([], 10) := by
  constructor
  · exact ((fetch_repository_list_cursor_semantics 10
      (ListOutcome.ok [⟨3, "a", "b"⟩])).2.1 (by decide)).trans (by decide)
  · exact (fetch_repository_list_cursor_semantics 10
      ListOutcome.rateLimited403).2.2 (Or.inl rfl)

/-- Claim C9: a run that completes with zero valid records while upload
was not skipped makes no sink write (no `upload_to_s3` call appears in
the trace, and no key is reported), yet still returns success and
exits with code 0. -/
theorem zero_valid_no_upload_success (maxReq : Int) (tm u : Bool) (since : Int)
    (listResp : ListOutcome) (net : String → String → DetailOutcome)
    (cache0 : Cache) (upOk : Bool) (md : Metadata) (s3w : Bool) (cnt : Nat)
    (h : (extract_repositories maxReq tm u false since listResp net cache0 upOk).1
          = RunResult.done md s3w cnt)
    (h0 : md.valid_count = 0) :
    Event.s3Upload
        ∉ (extract_repositories maxReq tm u false since listResp net cache0 upOk).2.2
    ∧ s3w = false ∧ cnt = 0
    ∧ runSuccess
        (extract_repositories maxReq tm u false since listResp net cache0 upOk).1
        = true
    ∧ mainExitCode
        (extract_repositories maxReq tm u false since listResp net cache0 upOk).1
        = 0 := by
  have hfd := extract_done maxReq tm u false since listResp net cache0 upOk
    md s3w cnt h
  obtain ⟨lp, hlp, hmd, hcnt, hs3⟩ := finishRun_done _ _ _ _ _ _ _ _ _ hfd
  have hvalid : (processAll u net (initLoopState cache0)
      (reposToProcess tm maxReq
        (fetch_repository_list since listResp).1.1)).valid_count = 0 := by
    rw [hmd] at h0
    simpa [mkRunMetadata] using h0
  have hlen : (processAll u net (initLoopState cache0)
      (reposToProcess tm maxReq
        (fetch_repository_list since listResp).1.1)).detailed.length
      = (processAll u net (initLoopState cache0)
          (reposToProcess tm maxReq
            (fetch_repository_list since listResp).1.1)).valid_count :=
    detailed_processAll u net _ _ (by simp [initLoopState])
  have hzero : (processAll u net (initLoopState cache0)
      (reposToProcess tm maxReq
        (fetch_repository_list since listResp).1.1)).detailed.length = 0 := by
    rw [hlen, hvalid]
  have hempty : (processAll u net (initLoopState cache0)
      (reposToProcess tm maxReq
        (fetch_repository_list since listResp).1.1)).detailed.isEmpty = true := by
    rw [List.isEmpty_iff, ← List.length_eq_zero]
    exact hzero
  refine ⟨extract_no_s3 maxReq tm u false since listResp net cache0 upOk hempty,
    hs3 hempty, ?_, ?_, ?_⟩
  · rw [hcnt, hzero]
  · rw [h]; rfl
  · rw [h]; rfl

/-- Claim C9, witness: a run whose single item 404s (zero valid
records) completes successfully with no sink write and exit code 0. -/
theorem zero_valid_no_upload_success_witness :
    ((extract_repositories 60 false true false 0 (ListOutcome.ok [⟨7, "oz", "nz"⟩])
        (fun _ _ => DetailOutcome.notFound) emptyCache true).1
      = RunResult.done ⟨0, 7, 1, 0, 0, 1, 1, 0, false⟩ false 0)
    ∧ Event.s3Upload
        ∉ (extract_repositories 60 false true false 0
            (ListOutcome.ok [⟨7, "oz", "nz"⟩])
            (fun _ _ => DetailOutcome.notFound) emptyCache true).2.2
    ∧ mainExitCode
        (extract_repositories 60 false true false 0
          (ListOutcome.ok [⟨7, "oz", "nz"⟩])
          (fun _ _ => DetailOutcome.notFound) emptyCache true).1 = 0 := by
  have h : (extract_repositories 60 false true false 0
      (ListOutcome.ok [⟨7, "oz", "nz"⟩])
      (fun _ _ => DetailOutcome.notFound) emptyCache true).1
      = RunResult.done ⟨0, 7, 1, 0, 0, 1, 1, 0, false⟩ false 0 := by decide
  have hz := zero_valid_no_upload_success 60 false true 0
    (ListOutcome.ok [⟨7, "oz", "nz"⟩]) (fun _ _ => DetailOutcome.notFound)
    emptyCache true ⟨0, 7, 1, 0, 0, 1, 1, 0, false⟩ false 0 h rfl
  exact ⟨h, hz.1, hz.2.2.2.2⟩

/-- Claim C10: each iteration of the detail loop increments exactly one
of valid_count, invalid_count, failed_count, so in every completed run
their sum equals total_processed, the length of the budget-truncated
summary list. -/
theorem counter_partition_invariant (maxReq : Int) (tm u skip : Bool)
    (since : Int) (listResp : ListOutcome)
    (net : String → String → DetailOutcome) (cache0 : Cache) (upOk : Bool)
    (md : Metadata) (s3w : Bool) (cnt : Nat)
    (h : (extract_repositories maxReq tm u skip since listResp net cache0 upOk).1
          = RunResult.done md s3w cnt) :
    md.valid_count + md.invalid_count + md.failed_count = md.total_processed
    ∧ md.total_processed
        = (reposToProcess tm maxReq
            (fetch_repository_list since listResp).1.1).length := by
  have hfd := extract_done maxReq tm u skip since listResp net cache0 upOk
    md s3w cnt h
  obtain ⟨lp, hlp, hmd, _, _⟩ := finishRun_done _ _ _ _ _ _ _ _ _ hfd
  have hc := counts_processAll u net
    (reposToProcess tm maxReq (fetch_repository_list since listResp).1.1)
    (initLoopState cache0)
  rw [hmd]
  simp only [mkRunMetadata]
  exact ⟨by simpa [initLoopState] using hc, by trivial⟩

/-- Claim C10, witness: a two-item run with one success and one 404
reports valid 1, invalid 0, failed 1, total 2. -/
theorem counter_partition_invariant_witness :
    ((extract_repositories 60 false true false 0
        (ListOutcome.ok [⟨5, "a", "x"⟩, ⟨6, "b", "y"⟩]) wNetMixed emptyCache
        true).1
      = RunResult.done ⟨0, 6, 2, 1, 0, 1, 1, 1, false⟩ true 1)
    ∧ (1 + 0 + 1 : Nat) = 2 := by
  have h : (extract_repositories 60 false true false 0
      (ListOutcome.ok [⟨5, "a", "x"⟩, ⟨6, "b", "y"⟩]) wNetMixed emptyCache
      true).1
      = RunResult.done ⟨0, 6, 2, 1, 0, 1, 1, 1, false⟩ true 1 := by decide
  exact ⟨h, (counter_partition_invariant 60 false true false 0
    (ListOutcome.ok [⟨5, "a", "x"⟩, ⟨6, "b", "y"⟩]) wNetMixed emptyCache true
    ⟨0, 6, 2, 1, 0, 1, 1, 1, false⟩ true 1 h).1⟩

end GitHubExtract
